import Mathlib

/-!
Verification of the gputhroughput utility (`src/main.rs`).

The embedding follows the source:

* `Throughput` mirrors the Rust struct of four `f64` fields; floating-point
  values are modelled as rationals.
* `Throughput.measure` mirrors `Throughput::measure`.  The outcomes of the
  OpenCL runtime calls and the wall-clock readings are external inputs, so
  they are passed in explicitly as a `MeasureEnv`; the function returns the
  outcome (normal return, `Err`, or a panic raised by `.expect`) together
  with the resulting struct state, reproducing the source's statement order.
* `Throughput.approximate_link_speed` mirrors `Throughput::approximate_link_speed`.
  The source iterates over a freshly built `HashMap` whose iteration order is
  unspecified, so the iteration order is an explicit parameter ranging over
  permutations of the entry list; `scanMin` reproduces `Iterator::min_by`,
  which keeps the first element among equal minima.  `rustRound` is
  `f64::round` (half away from zero) and `toI32sat` is the saturating
  `as i32` cast.  The `i32` arithmetic on the table keys is modelled with
  unbounded integers: every table key lies in `[1, 64]`, so for every rounded
  value in the saturated range the distances involved stay far inside `i32`.
-/

/-- The `Throughput` struct (`main.rs` lines 13-18): two throughputs in GB/s
and two durations in seconds, all `f64`, modelled as rationals. -/
structure Throughput where
  h2d_throughput : ℚ
  d2h_throughput : ℚ
  h2d_duration : ℚ
  d2h_duration : ℚ
deriving DecidableEq

/-- `Throughput::new` (lines 21-28): all four fields zero. -/
def Throughput.new : Throughput :=
  { h2d_throughput := 0, d2h_throughput := 0, h2d_duration := 0, d2h_duration := 0 }

/-- Outcome of one fallible OpenCL runtime call, as observed by `measure`:
either it succeeds or it reports an error carrying diagnostic text. -/
inductive CallResult where
  | success : CallResult
  | failure : String → CallResult
deriving DecidableEq

/-- The external inputs of one `Throughput::measure` call: the success or
failure of each runtime call, in source order, and the two wall-clock
elapsed times read from `Instant::elapsed`. -/
structure MeasureEnv where
  context_ok : Bool
  queue_ok : Bool
  buffer_create : CallResult
  enqueue_write : CallResult
  finish_after_write : CallResult
  h2d_elapsed : ℚ
  enqueue_read : CallResult
  finish_after_read : CallResult
  d2h_elapsed : ℚ
deriving DecidableEq

/-- How a `measure` call ends: a normal `Ok(())` return, an `Err` propagated
by the `?` operator, or a panic raised by `.expect`. -/
inductive MeasureOutcome where
  | ok : MeasureOutcome
  | err : String → MeasureOutcome
  | panic : String → MeasureOutcome
deriving DecidableEq

/-- `Throughput::measure` (lines 30-63).  Statement-by-statement image of the
source: context creation and queue creation panic on failure (`.expect`);
buffer creation, the blocking write, the blocking read and the two
`queue.finish()` calls propagate errors with `?`; the two h2d fields are
assigned after the first finish, the two d2h fields after the second.
`data_size * 4` is `data_size * size_of::<f32>()` and `1000000000` is the
`1e9` divisor. -/
def Throughput.measure (self : Throughput) (data_size : ℕ) (env : MeasureEnv) :
    MeasureOutcome × Throughput :=
  match env.context_ok with
  | false => (.panic "Context::from_device failed", self)
  | true =>
    match env.queue_ok with
    | false => (.panic "CommandQueue::create_default failed", self)
    | true =>
      match env.buffer_create with
      | .failure e => (.err e, self)
      | .success =>
        match env.enqueue_write with
        | .failure e => (.err e, self)
        | .success =>
          match env.finish_after_write with
          | .failure e => (.err e, self)
          | .success =>
            let after_h2d : Throughput :=
              { self with
                h2d_duration := env.h2d_elapsed
                h2d_throughput := ((data_size * 4 : ℕ) : ℚ) / env.h2d_elapsed / 1000000000 }
            match env.enqueue_read with
            | .failure e => (.err e, after_h2d)
            | .success =>
              match env.finish_after_read with
              | .failure e => (.err e, after_h2d)
              | .success =>
                (.ok,
                  { after_h2d with
                    d2h_duration := env.d2h_elapsed
                    d2h_throughput := ((data_size * 4 : ℕ) : ℚ) / env.d2h_elapsed / 1000000000 })

/-- One entry of the link-speed table: an `i32` key (GB/s) and its candidate
labels. -/
abbrev Entry : Type := ℤ × List String

/-- The fixed `pcie_speeds` table (lines 71-82), in the order the source
array literal lists the entries. -/
def pcie_speeds : List Entry :=
  [(1, ["PCIe 1.0 x4", "PCIe 2.0 x2", "PCIe 3.0 x1"]),
   (2, ["PCIe 1.0 x8", "PCIe 2.0 x4", "PCIe 3.0 x2", "PCIe 4.0 x1"]),
   (4, ["PCIe 1.0 x16", "PCIe 2.0 x8", "PCIe 3.0 x4", "PCIe 4.0 x2", "PCIe 5.0 x1"]),
   (8, ["PCIe 2.0 x16", "PCIe 3.0 x8", "PCIe 4.0 x4", "PCIe 5.0 x2"]),
   (16, ["PCIe 3.0 x16", "PCIe 4.0 x8", "PCIe 5.0 x4"]),
   (32, ["PCIe 4.0 x16", "PCIe 5.0 x8"]),
   (64, ["PCIe 5.0 x16"])]

/-- `f64::round`: rounding half away from zero. -/
def rustRound (q : ℚ) : ℤ := if 0 ≤ q then ⌊q + 1 / 2⌋ else ⌈q - 1 / 2⌉

/-- The saturating `as i32` cast applied to an already-rounded value. -/
def toI32sat (z : ℤ) : ℤ := max (-(2 ^ 31)) (min (2 ^ 31 - 1) z)

/-- `((self.h2d_throughput + self.d2h_throughput) / 2.0).round() as i32`
(lines 66-69). -/
def Throughput.rounded_avg (self : Throughput) : ℤ :=
  toI32sat (rustRound ((self.h2d_throughput + self.d2h_throughput) / 2))

/-- `(entry.key - rounded).abs()`, the comparison key of the `min_by` scan. -/
def absDist (r : ℤ) (e : Entry) : ℕ := (e.1 - r).natAbs

/-- One step of `Iterator::min_by`: the accumulator is kept unless the next
element is strictly closer, so the first of equally minimal elements wins. -/
def scanStep (r : ℤ) (acc y : Entry) : Entry :=
  if absDist r y < absDist r acc then y else acc

/-- `iter().min_by(...)` over the table in a given iteration order: `none`
exactly on an empty iterator (where the source's `.unwrap()` would panic). -/
def scanMin (r : ℤ) : List Entry → Option Entry
  | [] => none
  | x :: xs => some (xs.foldl (scanStep r) x)

/-- `Throughput::approximate_link_speed` (lines 65-92), parameterised by the
`HashMap` iteration order, which the Rust standard library leaves
unspecified; `order` ranges over permutations of `pcie_speeds`.  The
returned `some (key, candidates)` is the value after the source's
`.unwrap()` and `.clone()`. -/
def Throughput.approximate_link_speed (self : Throughput) (order : List Entry) :
    Option Entry :=
  scanMin self.rounded_avg order

/-- An environment in which every runtime call succeeds. -/
def envAllOk : MeasureEnv :=
  { context_ok := true, queue_ok := true, buffer_create := .success,
    enqueue_write := .success, finish_after_write := .success, h2d_elapsed := 1,
    enqueue_read := .success, finish_after_read := .success, d2h_elapsed := 2 }

/-- An environment in which `Context::from_device` fails. -/
def envCtxFail : MeasureEnv := { envAllOk with context_ok := false }

/-- An environment in which `Buffer::create` fails. -/
def envBufFail : MeasureEnv := { envAllOk with buffer_create := .failure "alloc failed" }

/-- An environment in which `enqueue_read_buffer` fails. -/
def envReadFail : MeasureEnv := { envAllOk with enqueue_read := .failure "read failed" }

/-- A second iteration order of the table: the key-16 entry first, the rest
in source order. -/
def tieOrderB : List Entry :=
  [(16, ["PCIe 3.0 x16", "PCIe 4.0 x8", "PCIe 5.0 x4"]),
   (1, ["PCIe 1.0 x4", "PCIe 2.0 x2", "PCIe 3.0 x1"]),
   (2, ["PCIe 1.0 x8", "PCIe 2.0 x4", "PCIe 3.0 x2", "PCIe 4.0 x1"]),
   (4, ["PCIe 1.0 x16", "PCIe 2.0 x8", "PCIe 3.0 x4", "PCIe 4.0 x2", "PCIe 5.0 x1"]),
   (8, ["PCIe 2.0 x16", "PCIe 3.0 x8", "PCIe 4.0 x4", "PCIe 5.0 x2"]),
   (32, ["PCIe 4.0 x16", "PCIe 5.0 x8"]),
   (64, ["PCIe 5.0 x16"])]

/-! ## Helper lemmas about the `min_by` scan -/

lemma scanStep_cases (r : ℤ) (acc y : Entry) : scanStep r acc y = acc ∨ scanStep r acc y = y := by
  unfold scanStep; split
  · exact Or.inr rfl
  · exact Or.inl rfl

lemma scanStep_le_acc (r : ℤ) (acc y : Entry) : absDist r (scanStep r acc y) ≤ absDist r acc := by
  unfold scanStep; split
  · exact Nat.le_of_lt (by assumption)
  · exact Nat.le_refl _

lemma scanStep_le_y (r : ℤ) (acc y : Entry) : absDist r (scanStep r acc y) ≤ absDist r y := by
  unfold scanStep; split
  · exact Nat.le_refl _
  · exact Nat.le_of_not_lt (by assumption)

lemma foldl_scanStep_spec (r : ℤ) (xs : List Entry) (acc : Entry) :
    (xs.foldl (scanStep r) acc = acc ∨ xs.foldl (scanStep r) acc ∈ xs) ∧
    absDist r (xs.foldl (scanStep r) acc) ≤ absDist r acc ∧
    ∀ y ∈ xs, absDist r (xs.foldl (scanStep r) acc) ≤ absDist r y := by
  induction xs generalizing acc with
  | nil =>
    refine ⟨Or.inl rfl, Nat.le_refl _, ?_⟩
    intro y hy
    cases hy
  | cons z zs ih =>
    obtain ⟨hmem, hacc, hall⟩ := ih (scanStep r acc z)
    simp only [List.foldl_cons]
    refine ⟨?_, ?_, ?_⟩
    · rcases hmem with h | h
      · rcases scanStep_cases r acc z with h2 | h2
        · exact Or.inl (h.trans h2)
        · exact Or.inr (by rw [h, h2]; exact List.mem_cons_self _ _)
      · exact Or.inr (List.mem_cons_of_mem _ h)
    · exact Nat.le_trans hacc (scanStep_le_acc r acc z)
    · intro y hy
      rcases List.mem_cons.mp hy with h | h
      · subst h
        exact Nat.le_trans hacc (scanStep_le_y r acc y)
      · exact hall y h

/-- `min_by` over a non-empty iterator returns an element of minimal
distance, the first such element in iteration order. -/
lemma scanMin_spec (r : ℤ) (x : Entry) (xs : List Entry) :
    ∃ e, scanMin r (x :: xs) = some e ∧ e ∈ x :: xs ∧
      ∀ y ∈ x :: xs, absDist r e ≤ absDist r y := by
  obtain ⟨hmem, hacc, hall⟩ := foldl_scanStep_spec r xs x
  refine ⟨xs.foldl (scanStep r) x, rfl, ?_, ?_⟩
  · rcases hmem with h | h
    · rw [h]; exact List.mem_cons_self _ _
    · exact List.mem_cons_of_mem _ h
  · intro y hy
    rcases List.mem_cons.mp hy with h | h
    · subst h; exact hacc
    · exact hall y h

/-- When one element is strictly closer than every other element of the
list, the scan returns it whatever the iteration order. -/
lemma scanMin_unique (r : ℤ) (l : List Entry) (m : Entry) (hm : m ∈ l)
    (hmin : ∀ y ∈ l, y ≠ m → absDist r m < absDist r y) : scanMin r l = some m := by
  cases l with
  | nil => cases hm
  | cons x xs =>
    obtain ⟨e, he, hemem, hele⟩ := scanMin_spec r x xs
    rw [he]
    by_cases h : e = m
    · rw [h]
    · exact absurd (hele m hm) (Nat.not_le_of_lt (hmin e hemem h))

/-! ## Claims -/

/-- Claim C1: for every `Throughput` state and every iteration order of the
`HashMap`, `approximate_link_speed` returns a pair whose key belongs to the
fixed table, has minimum absolute distance to the rounded average of the two
throughput fields, and whose candidate list is exactly the list the table
associates with that key. -/
theorem approximate_link_speed_nearest (m : Throughput) (order : List Entry)
    (hord : order.Perm pcie_speeds) :
    ∃ k cands, m.approximate_link_speed order = some (k, cands) ∧
      (k, cands) ∈ pcie_speeds ∧
      (∀ e ∈ pcie_speeds, absDist m.rounded_avg (k, cands) ≤ absDist m.rounded_avg e) ∧
      pcie_speeds.lookup k = some cands := by
  obtain ⟨x, xs, rfl⟩ : ∃ x xs, order = x :: xs := by
    cases order with
    | nil => exact absurd hord.length_eq (by decide)
    | cons x xs => exact ⟨x, xs, rfl⟩
  obtain ⟨e, he, hemem, hmin⟩ := scanMin_spec m.rounded_avg x xs
  have hmemtab : e ∈ pcie_speeds := hord.mem_iff.mp hemem
  have hlookup : ∀ p ∈ pcie_speeds, pcie_speeds.lookup p.1 = some p.2 := by decide
  refine ⟨e.1, e.2, he, hmemtab, ?_, hlookup e hmemtab⟩
  intro p hp
  exact hmin p (hord.mem_iff.mpr hp)

/-- Witness for claim C1 at throughputs 5 and 7 GB/s and the source order. -/
theorem approximate_link_speed_nearest_w :
    ∃ k cands,
      Throughput.approximate_link_speed ⟨5, 7, 0, 0⟩ pcie_speeds = some (k, cands) ∧
      (k, cands) ∈ pcie_speeds ∧
      (∀ e ∈ pcie_speeds,
        absDist (Throughput.rounded_avg ⟨5, 7, 0, 0⟩) (k, cands) ≤
          absDist (Throughput.rounded_avg ⟨5, 7, 0, 0⟩) e) ∧
      pcie_speeds.lookup k = some cands :=
  approximate_link_speed_nearest ⟨5, 7, 0, 0⟩ pcie_speeds (List.Perm.refl _)

/-- Claim C2, counterexample: with both throughputs zero, buffer size 1 and a
run in which the device-to-host read fails after one second of host-to-device
time, `measure` returns an error yet the two h2d fields have been updated
(duration 1, throughput 4e-9) while the two d2h fields keep their prior
zeros: the four fields are not updated as a unit. -/
theorem measure_partial_update_cex :
    (Throughput.new.measure 1 envReadFail).1 = .err "read failed" ∧
    (Throughput.new.measure 1 envReadFail).2.h2d_duration = 1 ∧
    (Throughput.new.measure 1 envReadFail).2.h2d_throughput = 1 / 250000000 ∧
    Throughput.new.h2d_duration = 0 ∧
    Throughput.new.h2d_throughput = 0 ∧
    (Throughput.new.measure 1 envReadFail).2.d2h_duration = 0 ∧
    (Throughput.new.measure 1 envReadFail).2.d2h_throughput = 0 := by
  norm_num [Throughput.measure, envReadFail, envAllOk, Throughput.new]

/-- Claim C2, amended: when `measure` returns an error, either all four
fields are unchanged (failure at buffer creation, the write, or the first
finish), or the two h2d fields have been set to their new values while the
two d2h fields are unchanged (failure at the read or the second finish). -/
theorem measure_err_update_shape (m : Throughput) (n : ℕ) (env : MeasureEnv) (e : String)
    (h : (m.measure n env).1 = .err e) :
    (m.measure n env).2 = m ∨
    ((m.measure n env).2.h2d_duration = env.h2d_elapsed ∧
     (m.measure n env).2.h2d_throughput = ((n * 4 : ℕ) : ℚ) / env.h2d_elapsed / 1000000000 ∧
     (m.measure n env).2.d2h_throughput = m.d2h_throughput ∧
     (m.measure n env).2.d2h_duration = m.d2h_duration) := by
  obtain ⟨co, qo, bc, wr, f1, hel, rd, f2, de⟩ := env
  cases co <;> cases qo <;> cases bc <;> cases wr <;> cases f1 <;> cases rd <;> cases f2 <;>
    simp_all [Throughput.measure]

/-- Witness for the amended claim C2 at the failing-read environment. -/
theorem measure_err_update_shape_w :
    (Throughput.new.measure 1 envReadFail).2 = Throughput.new ∨
    ((Throughput.new.measure 1 envReadFail).2.h2d_duration = envReadFail.h2d_elapsed ∧
     (Throughput.new.measure 1 envReadFail).2.h2d_throughput =
       ((1 * 4 : ℕ) : ℚ) / envReadFail.h2d_elapsed / 1000000000 ∧
     (Throughput.new.measure 1 envReadFail).2.d2h_throughput =
       Throughput.new.d2h_throughput ∧
     (Throughput.new.measure 1 envReadFail).2.d2h_duration =
       Throughput.new.d2h_duration) :=
  measure_err_update_shape Throughput.new 1 envReadFail "read failed" rfl

/-- Claim C3, counterexample: on a device whose execution-context creation
fails, `measure` does not return an error value; it panics (the source uses
`.expect`), leaving the fields untouched. -/
theorem measure_context_fail_cex :
    (⟨1, 2, 3, 4⟩ : Throughput).measure 5 envCtxFail =
      (.panic "Context::from_device failed", ⟨1, 2, 3, 4⟩) := by
  norm_num [Throughput.measure, envCtxFail, envAllOk]

/-- Claim C3, amended: when context creation fails, `measure` panics with
the `.expect` message, and no field of the struct is mutated. -/
theorem measure_context_fail_panics (m : Throughput) (n : ℕ) (env : MeasureEnv)
    (h : env.context_ok = false) :
    m.measure n env = (.panic "Context::from_device failed", m) := by
  obtain ⟨co, qo, bc, wr, f1, hel, rd, f2, de⟩ := env
  cases co with
  | false => rfl
  | true => exact Bool.noConfusion h

/-- Witness for the amended claim C3. -/
theorem measure_context_fail_panics_w :
    Throughput.new.measure 3 envCtxFail =
      (.panic "Context::from_device failed", Throughput.new) :=
  measure_context_fail_panics Throughput.new 3 envCtxFail rfl

/-- Claim C4, counterexample: at throughputs averaging 12 GB/s (equidistant
from keys 8 and 16) two legitimate iteration orders of the same `HashMap`
contents give different results, so two invocations on equal throughput
fields need not return the same pair. -/
theorem approximate_link_speed_tie_cex :
    tieOrderB.Perm pcie_speeds ∧
    Throughput.approximate_link_speed ⟨12, 12, 0, 0⟩ pcie_speeds ≠
      Throughput.approximate_link_speed ⟨12, 12, 0, 0⟩ tieOrderB := by
  have hr : Throughput.rounded_avg ⟨12, 12, 0, 0⟩ = 12 := by
    norm_num [Throughput.rounded_avg, rustRound, toI32sat]
  refine ⟨by decide, ?_⟩
  unfold Throughput.approximate_link_speed
  rw [hr]
  decide

/-- Claim C4, amended: `approximate_link_speed` is a pure function of the
two throughput fields and the `HashMap` iteration order: on equal throughput
fields and the same iteration order the result is identical (the duration
fields are irrelevant); only a different iteration order can change the
winner among exact ties such as a rounded average of 12. -/
theorem approximate_link_speed_deterministic_given_order (m1 m2 : Throughput)
    (order : List Entry)
    (h1 : m1.h2d_throughput = m2.h2d_throughput)
    (h2 : m1.d2h_throughput = m2.d2h_throughput) :
    m1.approximate_link_speed order = m2.approximate_link_speed order := by
  unfold Throughput.approximate_link_speed Throughput.rounded_avg
  rw [h1, h2]

/-- Witness for the amended claim C4: equal throughputs, different
durations, same order, same result. -/
theorem approximate_link_speed_deterministic_given_order_w :
    Throughput.approximate_link_speed ⟨12, 12, 0, 0⟩ pcie_speeds =
      Throughput.approximate_link_speed ⟨12, 12, 5, 9⟩ pcie_speeds :=
  approximate_link_speed_deterministic_given_order ⟨12, 12, 0, 0⟩ ⟨12, 12, 5, 9⟩
    pcie_speeds rfl rfl

/-- Claim C5, counterexample: with the positive buffer size 1 and a device
whose context creation fails, `measure` neither returns successfully nor
returns a transfer error: it panics. -/
theorem measure_panic_outcome_cex :
    (Throughput.new.measure 1 envCtxFail).1 = .panic "Context::from_device failed" ∧
    (Throughput.new.measure 1 envCtxFail).1 ≠ .ok := by
  refine ⟨rfl, by decide⟩

/-- Claim C5, amended: for every positive buffer size, provided context and
queue creation succeed (otherwise `measure` panics) and the wall-clock
readings are non-negative, `measure` either returns an error or returns
successfully with all four fields non-negative. -/
theorem measure_ok_or_err_nonneg (m : Throughput) (n : ℕ) (env : MeasureEnv)
    (hn : 0 < n) (hc : env.context_ok = true) (hq : env.queue_ok = true)
    (hh : 0 ≤ env.h2d_elapsed) (hd : 0 ≤ env.d2h_elapsed) :
    (∃ e, (m.measure n env).1 = .err e) ∨
    ((m.measure n env).1 = .ok ∧
     0 ≤ (m.measure n env).2.h2d_throughput ∧
     0 ≤ (m.measure n env).2.d2h_throughput ∧
     0 ≤ (m.measure n env).2.h2d_duration ∧
     0 ≤ (m.measure n env).2.d2h_duration) := by
  obtain ⟨co, qo, bc, wr, f1, hel, rd, f2, de⟩ := env
  cases co
  · exact Bool.noConfusion hc
  · cases qo
    · exact Bool.noConfusion hq
    · cases bc with
      | failure e => exact Or.inl ⟨e, rfl⟩
      | success =>
        cases wr with
        | failure e => exact Or.inl ⟨e, rfl⟩
        | success =>
          cases f1 with
          | failure e => exact Or.inl ⟨e, rfl⟩
          | success =>
            cases rd with
            | failure e => exact Or.inl ⟨e, rfl⟩
            | success =>
              cases f2 with
              | failure e => exact Or.inl ⟨e, rfl⟩
              | success =>
                refine Or.inr ⟨rfl, ?_, ?_, ?_, ?_⟩
                · show 0 ≤ ((n * 4 : ℕ) : ℚ) / hel / 1000000000
                  exact div_nonneg (div_nonneg (by positivity) hh) (by norm_num)
                · show 0 ≤ ((n * 4 : ℕ) : ℚ) / de / 1000000000
                  exact div_nonneg (div_nonneg (by positivity) hd) (by norm_num)
                · exact hh
                · exact hd

/-- Witness for the amended claim C5 at the all-success environment. -/
theorem measure_ok_or_err_nonneg_w :
    (∃ e, (Throughput.new.measure 1 envAllOk).1 = .err e) ∨
    ((Throughput.new.measure 1 envAllOk).1 = .ok ∧
     0 ≤ (Throughput.new.measure 1 envAllOk).2.h2d_throughput ∧
     0 ≤ (Throughput.new.measure 1 envAllOk).2.d2h_throughput ∧
     0 ≤ (Throughput.new.measure 1 envAllOk).2.h2d_duration ∧
     0 ≤ (Throughput.new.measure 1 envAllOk).2.d2h_duration) :=
  measure_ok_or_err_nonneg Throughput.new 1 envAllOk (by norm_num) rfl rfl
    (by norm_num [envAllOk]) (by norm_num [envAllOk])

/-- Claim C6: after a successful `measure` with buffer size `n`, each
throughput field equals `(n * 4) / duration / 1e9` with its recorded
duration field, where 4 bytes is the size of an `f32`. -/
theorem measure_ok_throughput_eq (m : Throughput) (n : ℕ) (env : MeasureEnv)
    (h : (m.measure n env).1 = .ok) :
    (m.measure n env).2.h2d_throughput =
      ((n * 4 : ℕ) : ℚ) / (m.measure n env).2.h2d_duration / 1000000000 ∧
    (m.measure n env).2.d2h_throughput =
      ((n * 4 : ℕ) : ℚ) / (m.measure n env).2.d2h_duration / 1000000000 := by
  obtain ⟨co, qo, bc, wr, f1, hel, rd, f2, de⟩ := env
  cases co <;> cases qo <;> cases bc <;> cases wr <;> cases f1 <;> cases rd <;> cases f2 <;>
    simp_all [Throughput.measure]

/-- Witness for claim C6 at the all-success environment. -/
theorem measure_ok_throughput_eq_w :
    (Throughput.new.measure 1 envAllOk).2.h2d_throughput =
      ((1 * 4 : ℕ) : ℚ) / (Throughput.new.measure 1 envAllOk).2.h2d_duration / 1000000000 ∧
    (Throughput.new.measure 1 envAllOk).2.d2h_throughput =
      ((1 * 4 : ℕ) : ℚ) / (Throughput.new.measure 1 envAllOk).2.d2h_duration / 1000000000 :=
  measure_ok_throughput_eq Throughput.new 1 envAllOk rfl

/-- Claim C7: when the averaged throughput is 0.6 GB/s it rounds to 1, whose
nearest table key is 1 with strictly smaller distance than every other key,
so `approximate_link_speed` returns key 1 and exactly its three candidate
labels, whatever the iteration order. -/
theorem approximate_link_speed_point_six (m : Throughput) (order : List Entry)
    (hord : order.Perm pcie_speeds)
    (havg : (m.h2d_throughput + m.d2h_throughput) / 2 = 3 / 5) :
    m.approximate_link_speed order =
      some (1, ["PCIe 1.0 x4", "PCIe 2.0 x2", "PCIe 3.0 x1"]) := by
  have hr : m.rounded_avg = 1 := by
    unfold Throughput.rounded_avg
    rw [havg]
    norm_num [rustRound, toI32sat]
  unfold Throughput.approximate_link_speed
  rw [hr]
  refine scanMin_unique 1 order _ (hord.mem_iff.mpr (by decide)) ?_
  intro y hy hne
  have hkey : ∀ y ∈ pcie_speeds,
      y ≠ ((1 : ℤ), ["PCIe 1.0 x4", "PCIe 2.0 x2", "PCIe 3.0 x1"]) →
      absDist 1 ((1 : ℤ), ["PCIe 1.0 x4", "PCIe 2.0 x2", "PCIe 3.0 x1"]) < absDist 1 y := by
    decide
  exact hkey y (hord.mem_iff.mp hy) hne

/-- Witness for claim C7: both throughputs 0.6 GB/s, source order. -/
theorem approximate_link_speed_point_six_w :
    Throughput.approximate_link_speed ⟨3/5, 3/5, 0, 0⟩ pcie_speeds =
      some (1, ["PCIe 1.0 x4", "PCIe 2.0 x2", "PCIe 3.0 x1"]) :=
  approximate_link_speed_point_six ⟨3/5, 3/5, 0, 0⟩ pcie_speeds (List.Perm.refl _)
    (by norm_num)

/-- Claim C8: for every `Throughput` state and every iteration order of the
seven-entry table, the `min_by` scan resolves to some entry (the source's
`.unwrap()` cannot fail) and the returned candidate list is non-empty. -/
theorem approximate_link_speed_total_nonempty (m : Throughput) (order : List Entry)
    (hord : order.Perm pcie_speeds) :
    ∃ k cands, m.approximate_link_speed order = some (k, cands) ∧ cands ≠ [] := by
  obtain ⟨x, xs, rfl⟩ : ∃ x xs, order = x :: xs := by
    cases order with
    | nil => exact absurd hord.length_eq (by decide)
    | cons x xs => exact ⟨x, xs, rfl⟩
  obtain ⟨e, he, hemem, _⟩ := scanMin_spec m.rounded_avg x xs
  have hne : ∀ p ∈ pcie_speeds, p.2 ≠ [] := by decide
  exact ⟨e.1, e.2, he, hne e (hord.mem_iff.mp hemem)⟩

/-- Witness for claim C8 at throughputs of 100 GB/s, above the top key. -/
theorem approximate_link_speed_total_nonempty_w :
    ∃ k cands,
      Throughput.approximate_link_speed ⟨100, 100, 0, 0⟩ pcie_speeds = some (k, cands) ∧
      cands ≠ [] :=
  approximate_link_speed_total_nonempty ⟨100, 100, 0, 0⟩ pcie_speeds (List.Perm.refl _)

/-- Claim C9: when buffer creation, the host-to-device write, or the first
`queue.finish()` fails (context and queue creation having succeeded),
`measure` returns exactly that error and the struct is returned with all
four fields exactly as before the call. -/
theorem measure_early_error_frame (m : Throughput) (n : ℕ) (env : MeasureEnv) (e : String)
    (hc : env.context_ok = true) (hq : env.queue_ok = true)
    (h : env.buffer_create = .failure e ∨
         (env.buffer_create = .success ∧ env.enqueue_write = .failure e) ∨
         (env.buffer_create = .success ∧ env.enqueue_write = .success ∧
          env.finish_after_write = .failure e)) :
    m.measure n env = (.err e, m) := by
  rcases h with h1 | ⟨h1, h2⟩ | ⟨h1, h2, h3⟩
  · simp [Throughput.measure, hc, hq, h1]
  · simp [Throughput.measure, hc, hq, h1, h2]
  · simp [Throughput.measure, hc, hq, h1, h2, h3]

/-- Witness for claim C9 at a failing buffer allocation. -/
theorem measure_early_error_frame_w :
    Throughput.new.measure 2 envBufFail = (.err "alloc failed", Throughput.new) :=
  measure_early_error_frame Throughput.new 2 envBufFail "alloc failed" rfl rfl (Or.inl rfl)

/-- Claim C10: on a freshly constructed `Throughput` (all four fields zero)
the average 0 rounds to 0, whose unique nearest table key is 1, so
`approximate_link_speed` returns key 1 with key 1's candidate list for every
iteration order; the GUI result panel, which recomputes this every frame,
therefore shows 1 GB/s before any measurement has run. -/
theorem new_approximate_link_speed_one (order : List Entry)
    (hord : order.Perm pcie_speeds) :
    Throughput.new.approximate_link_speed order =
      some (1, ["PCIe 1.0 x4", "PCIe 2.0 x2", "PCIe 3.0 x1"]) := by
  have hr : Throughput.new.rounded_avg = 0 := by
    norm_num [Throughput.new, Throughput.rounded_avg, rustRound, toI32sat]
  unfold Throughput.approximate_link_speed
  rw [hr]
  refine scanMin_unique 0 order _ (hord.mem_iff.mpr (by decide)) ?_
  intro y hy hne
  have hkey : ∀ y ∈ pcie_speeds,
      y ≠ ((1 : ℤ), ["PCIe 1.0 x4", "PCIe 2.0 x2", "PCIe 3.0 x1"]) →
      absDist 0 ((1 : ℤ), ["PCIe 1.0 x4", "PCIe 2.0 x2", "PCIe 3.0 x1"]) < absDist 0 y := by
    decide
  exact hkey y (hord.mem_iff.mp hy) hne

/-- Witness for claim C10 at the source order. -/
theorem new_approximate_link_speed_one_w :
    Throughput.new.approximate_link_speed pcie_speeds =
      some (1, ["PCIe 1.0 x4", "PCIe 2.0 x2", "PCIe 3.0 x1"]) :=
  new_approximate_link_speed_one pcie_speeds (List.Perm.refl _)
